import Mathlib

/-!
Verification of the RustScan Go bindings (package `RustScan`): the scan
orchestrator `Scanner.Run`, the synthesized empty-report payload `Structure`,
the diagnostic classifier `analyzeWarnings`, and the result filters
`chooseHosts` / `choosePorts`, embedded shallowly over lists and strings.
Strings are modelled as their character lists; the Go helpers from the
`strings` standard-library package used by the code (`Contains`, `Split`,
`Trim`, `ReplaceAll`) are reimplemented below on `List Char`.
-/

namespace RustScan

/-! ## String helpers (Go `strings` package operations used by the code) -/

/-- `pat` starts as a contiguous sublist at some position of the list. -/
def hasSubAux (pat : List Char) : List Char → Bool
  | [] => pat.isEmpty
  | c :: rest => List.isPrefixOf pat (c :: rest) || hasSubAux pat rest

/-- `strings.Contains s sub` from the Go standard library: `sub` occurs as a
contiguous substring of `s`. -/
def goContains (s sub : String) : Bool :=
  hasSubAux sub.toList s.toList

/-- Number of positions of the list at which `pat` starts as a contiguous
sublist (occurrence count of a substring). -/
def countOccAux (pat : List Char) : List Char → Nat
  | [] => if pat = [] then 1 else 0
  | c :: rest =>
    (if List.isPrefixOf pat (c :: rest) then 1 else 0) + countOccAux pat rest

/-- Occurrence count of substring `pat` in `s`. -/
def countOcc (s pat : String) : Nat :=
  countOccAux pat.toList s.toList

/-- Drop everything up to and including the first occurrence of `pat`;
`none` when `pat` does not occur. -/
def dropThrough (pat : List Char) : List Char → Option (List Char)
  | [] => if pat = [] then some [] else none
  | c :: rest =>
    if List.isPrefixOf pat (c :: rest) then some (List.drop pat.length (c :: rest))
    else dropThrough pat rest

/-- The value of the first XML attribute assignment `key="value"` in `s`:
the text between the first occurrence of `key="` and the next quote
(character 34). -/
def attrVal (s key : String) : Option String :=
  match dropThrough (key.toList ++ [Char.ofNat 61, Char.ofNat 34]) s.toList with
  | none => none
  | some rest => some (String.mk (rest.takeWhile (fun c => c ≠ Char.ofNat 34)))

/-- Left-to-right non-overlapping replacement of a nonempty pattern, with
explicit fuel (one unit per consumed input character). -/
def replaceLoop (pat rep : List Char) : Nat → List Char → List Char
  | 0, l => l
  | _ + 1, [] => []
  | fuel + 1, c :: rest =>
    if List.isPrefixOf pat (c :: rest) then
      rep ++ replaceLoop pat rep fuel (List.drop (pat.length - 1) rest)
    else
      c :: replaceLoop pat rep fuel rest

/-- `strings.ReplaceAll s pat rep` from the Go standard library, for a
nonempty pattern. -/
def goReplaceAll (s pat rep : String) : String :=
  String.mk (replaceLoop pat.toList rep.toList s.toList.length s.toList)

/-- Splitting on a single separator character; `acc` holds the reversed
current field. -/
def splitCharAux (sep : Char) : List Char → List Char → List String
  | acc, [] => [String.mk acc.reverse]
  | acc, c :: rest =>
    if c = sep then String.mk acc.reverse :: splitCharAux sep [] rest
    else splitCharAux sep (c :: acc) rest

/-- `strings.Split s "\n"` from the Go standard library. -/
def goSplitNl (s : String) : List String :=
  splitCharAux (Char.ofNat 10) [] s.toList

/-- `strings.Trim s "\n"` from the Go standard library: remove all leading
and trailing newline characters. -/
def trimNl (s : String) : String :=
  String.mk
    (((s.toList.dropWhile (fun c => c = Char.ofNat 10)).reverse.dropWhile
      (fun c => c = Char.ofNat 10)).reverse)

/-- Splitting on a nonempty separator string, with explicit fuel (one unit
per consumed input character); `acc` holds the reversed current field. -/
def splitStrLoop (pat : List Char) : Nat → List Char → List Char → List String
  | 0, acc, l => [String.mk (acc.reverse ++ l)]
  | _ + 1, acc, [] => [String.mk acc.reverse]
  | fuel + 1, acc, c :: rest =>
    if List.isPrefixOf pat (c :: rest) then
      String.mk acc.reverse :: splitStrLoop pat fuel [] (List.drop (pat.length - 1) rest)
    else
      splitStrLoop pat fuel (c :: acc) rest

/-- `strings.Split s pat` from the Go standard library, for a nonempty
separator. -/
def goSplit (s pat : String) : List String :=
  splitStrLoop pat.toList s.toList.length [] s.toList

/-! ## Report model

Modelled from the spec: the Report Model data structures (the repository's
structured-markup schema file is not among the provided sources, only the
orchestrator that consumes it). Field and type names follow the spec and
the orchestrator's accesses (`result.Hosts`, `host.Ports`,
`result.Stats.Finished.ErrorMsg`). -/

/-- Modelled from the spec: identification of the listening program; the
name is the only field consumed by the core logic. -/
structure Service where
  Name : String
deriving DecidableEq

/-- Modelled from the spec: one probed port — numeric identifier, protocol
tag, textual state, nested service descriptor. -/
structure Port where
  ID : Nat
  Protocol : String
  State : String
  Service : Service
deriving DecidableEq

/-- Modelled from the spec: one scanned endpoint — addresses, hostname
strings, ordered port sequence. Addresses are kept as their display
strings. -/
structure Host where
  Addresses : List String
  Hostnames : List String
  Ports : List Port
deriving DecidableEq

/-- Modelled from the spec: the finish statistics — elapsed wall-clock
seconds (kept as the attribute text, since no core logic computes with it)
and an optional scan-level error message (empty when absent). -/
structure Finished where
  Elapsed : String
  ErrorMsg : String
deriving DecidableEq

/-- Modelled from the spec: scan-level metadata holding the finish
sub-record. -/
structure Stats where
  Finished : Finished
deriving DecidableEq

/-- Modelled from the spec: the root result of one scan — ordered host
sequence plus scan-level statistics. The Go type is also named `Run`. -/
structure Run where
  Hosts : List Host
  Stats : Stats
deriving DecidableEq

/-! ## Errors -/

/-- The error values `Run` can return: the sentinel errors of the package
(`ErrScanCDN`, `ErrScanTimeout`, `ErrMallocFailed`, `ErrParseOutput`,
`ErrResolveName`), the error propagated from a failed process spawn
(`StartFailure`), and the generic error built from a scan-level failure
message (`ScanFailure`). -/
inductive ScanError where
  | StartFailure
  | ErrScanCDN
  | ErrScanTimeout
  | ErrMallocFailed
  | ErrParseOutput
  | ErrResolveName
  | ScanFailure (msg : String)
deriving DecidableEq

/-! ## Synthesized empty-report payload (`Structure`) -/

/-- The fixed payload template of `Structure`, verbatim from the source. -/
def close_info : String := "<?xml version=\"1.0\" encoding=\"UTF-8\"?>
<!DOCTYPE nmaprun>
<?xml-stylesheet href=\"file:///usr/local/bin/../share/nmap/nmap.xsl\" type=\"text/xsl\"?>
<!-- Nmap 7.92 scan initiated Tue Dec  7 15:34:04 2021 as: nmap -p 80,443 -oX - rustscan_info -->
<nmaprun scanner=\"nmap\" args=\"nmap -p 80,443 -oX - rustscan_info\" start=\"1638862444\" startstr=\"Tue Dec  7 15:34:04 2021\" version=\"7.92\" xmloutputversion=\"1.05\">
<scaninfo type=\"connect\" protocol=\"tcp\" numservices=\"2\" services=\"80,443\"/>
<verbose level=\"0\"/>
<debugging level=\"0\"/>
<hosthint><status state=\"up\" reason=\"unknown-response\" reason_ttl=\"0\"/>
<address addr=\"rustscan_info\" addrtype=\"ipv4\"/>
<hostnames>
</hostnames>
</hosthint>
<host starttime=\"1638862444\" endtime=\"1638862444\"><status state=\"up\" reason=\"conn-refused\" reason_ttl=\"0\"/>
<address addr=\"rustscan_info\" addrtype=\"ipv4\"/>
<hostnames>
</hostnames>
<ports><port protocol=\"tcp\" portid=\"80\"><state state=\"closed\" reason=\"conn-refused\" reason_ttl=\"0\"/><service name=\"http\" method=\"table\" conf=\"3\"/></port>
</ports>
<times srtt=\"53510\" rttvar=\"31142\" to=\"178078\"/>
</host>
<runstats><finished time=\"1638862444\" timestr=\"Tue Dec  7 15:34:04 2021\" summary=\"Nmap done at Tue Dec  7 15:34:04 2021; 1 IP address (1 host up) scanned in 0.25 seconds\" elapsed=\"0.25\" exit=\"success\"/><hosts up=\"1\" down=\"0\" total=\"1\"/>
</runstats>
</nmaprun>"

/-- The synthesized empty-report payload: the fixed template with every
`rustscan_info` placeholder replaced by `www.baidu.com`. -/
def Structure : String :=
  goReplaceAll close_info ("rustscan_info") ("www.baidu.com")

/-! ## Diagnostic classifier (`analyzeWarnings`) -/

/-- The out-of-memory marker scanned for by the classifier. -/
def mallocMarker : String := "Malloc Failed!"

/-- Scan each warning line in order; a line containing the out-of-memory
marker yields `ErrMallocFailed`, every other line falls through to the
next; no match yields no error. -/
def analyzeWarnings : List String → Option ScanError
  | [] => none
  | w :: ws =>
    if goContains w mallocMarker then some ScanError.ErrMallocFailed
    else analyzeWarnings ws

/-! ## Result filters (`chooseHosts` / `choosePorts`) -/

/-- The value held by the report object after `chooseHosts`: the host
sequence is replaced by the hosts accepted by the filter, in order. -/
def chooseHosts (result : Run) (filter : Host → Bool) : Run :=
  { result with Hosts := result.Hosts.filter filter }

/-- The indexed loop of `choosePorts`: for each index below the bound,
overwrite that host's port sequence with its filtered ports, ascending. -/
def portsLoopAux (filter : Port → Bool) (hosts : List Host) : Nat → List Host
  | 0 => hosts
  | k + 1 =>
    let hosts' := portsLoopAux filter hosts k
    match hosts'.get? k with
    | some h => hosts'.set k { h with Ports := h.Ports.filter filter }
    | none => hosts'

/-- The value held by the report object after `choosePorts`: every host's
port sequence is replaced in place by its filtered ports. -/
def choosePorts (result : Run) (filter : Port → Bool) : Run :=
  { result with Hosts := portsLoopAux filter result.Hosts result.Hosts.length }

/-- A heap of report objects; a `*Run` pointer is an index into it. Used to
state aliasing and mutation facts about the filters, which receive and
return pointers in Go. -/
structure Mem where
  cells : List Run
deriving DecidableEq

/-- `chooseHosts` at the pointer level: the pointed-to report is updated in
place and the same pointer is returned. -/
def chooseHostsMem (m : Mem) (p : Nat) (filter : Host → Bool) : Mem × Nat :=
  match m.cells.get? p with
  | some r => (⟨m.cells.set p (chooseHosts r filter)⟩, p)
  | none => (m, p)

/-- `choosePorts` at the pointer level: the pointed-to report is updated in
place and the same pointer is returned. -/
def choosePortsMem (m : Mem) (p : Nat) (filter : Port → Bool) : Mem × Nat :=
  match m.cells.get? p with
  | some r => (⟨m.cells.set p (choosePorts r filter)⟩, p)
  | none => (m, p)

/-! ## The orchestrator (`Scanner.Run`) -/

/-- The open-port-discovered marker counted during live output scanning. -/
def openMarker : String := "Open "

/-- The informational-section delimiter used to split the accumulated
standard-output text. -/
def sectionDelim : String := "[~]"

/-- The markup-declaration token locating the structured payload. -/
def xmlDeclToken : String := "<?xml "

/-- The notice the tool prints instead of a payload when no open port was
found (spelled without a literal apostrophe character). -/
def noPortsNotice : String :=
  ("Looks like I didn") ++ String.mk [Char.ofNat 39] ++ ("t find any open ports")

/-- The streaming-phase read loop: each chunk read from the pipe is
appended to the accumulation buffer, and the counter is incremented once
per chunk containing the open-port marker. Returns the final buffer and
counter. -/
def readLoop : List String → String → Nat → String × Nat
  | [], out, n => (out, n)
  | tmp :: rest, out, n =>
    readLoop rest (out ++ tmp) (if goContains tmp openMarker then n + 1 else n)

/-- Payload extraction after the stream ends: split the accumulated text on
the informational delimiter; a segment containing the markup declaration
becomes the payload with its first character dropped, a segment containing
the no-open-ports notice selects the synthesized payload; the last matching
segment wins, and no match leaves the payload empty. -/
def extractPayload (out_tmp : String) : String :=
  List.foldl
    (fun out info =>
      if goContains info xmlDeclToken then String.mk (info.toList.drop 1)
      else if goContains info noPortsNotice then Structure
      else out)
    "" (goSplit out_tmp sectionDelim)

/-- The warnings derived from the standard-error buffer: newline-split of
the newline-trimmed content when nonempty, otherwise the nil sequence. -/
def stderrWarnings (stderrContent : String) : List String :=
  if 0 < stderrContent.length then goSplitNl (trimNl stderrContent) else []

/-- The environment one `Run` call observes: whether the spawn succeeded,
the chunks delivered by the standard-output pipe, which arm of the
completion race fires first, the standard-error content, the report parser
(modelled from the spec: `Parse` is not among the provided sources — a pure
function from payload bytes to a report or a parse-error message), and the
optional filters stored on the scanner. -/
structure RunEnv where
  spawnOk : Bool
  chunks : List String
  ctxDoneFirst : Bool
  stderrContent : String
  parse : String → Except String Run
  portFilter : Option (Port → Bool)
  hostFilter : Option (Host → Bool)

/-- The triple `(result, warnings, err)` returned by `Run`; a `none`
result or error is Go `nil`, and the empty warnings list is the Go nil
slice (every populated warnings value here is nonempty). -/
structure RunOutcome where
  result : Option Run
  warnings : List String
  err : Option ScanError
deriving DecidableEq

/-- The completion phase of `Run`, entered when the process-exit arm wins
the race: derive warnings from standard error, classify them, extract and
parse the payload, surface a scan-level failure message, and otherwise
apply the configured filters (ports first, then hosts). -/
def completionPhase (env : RunEnv) (out_tmp : String) : RunOutcome :=
  let warnings := stderrWarnings env.stderrContent
  match analyzeWarnings warnings with
  | some e => ⟨none, warnings, some e⟩
  | none =>
    match env.parse (extractPayload out_tmp) with
    | Except.error msg => ⟨none, warnings ++ [msg], some ScanError.ErrParseOutput⟩
    | Except.ok result =>
      if 0 < result.Stats.Finished.ErrorMsg.length then
        if goContains result.Stats.Finished.ErrorMsg ("Error resolving name") then
          ⟨some result, warnings, some ScanError.ErrResolveName⟩
        else
          ⟨some result, warnings, some (ScanError.ScanFailure result.Stats.Finished.ErrorMsg)⟩
      else
        let r1 := match env.portFilter with
          | some f => choosePorts result f
          | none => result
        let r2 := match env.hostFilter with
          | some f => chooseHosts r1 f
          | none => r1
        ⟨some r2, warnings, none⟩

/-- The orchestrator `(*Scanner).Run(limit)`: on spawn failure return the
spawn error at once; otherwise run the whole streaming read loop, then
kill the process and return `ErrScanCDN` when the counter exceeds the
limit; otherwise race cancellation against process exit — cancellation
first kills the process and returns `ErrScanTimeout`, process exit first
enters the completion phase. -/
def Scanner.Run (env : RunEnv) (limit : Int) : RunOutcome :=
  if env.spawnOk = false then ⟨none, [], some ScanError.StartFailure⟩
  else
    let st := readLoop env.chunks "" 0
    if (st.2 : Int) > limit then ⟨none, [], some ScanError.ErrScanCDN⟩
    else if env.ctxDoneFirst then ⟨none, [], some ScanError.ErrScanTimeout⟩
    else completionPhase env st.1

/-- Observable events of the streaming phase, used to state in what order
the orchestrator reads chunks, kills the process, and enters the
completion-phase race. -/
inductive StreamEvent where
  | readChunk (i : Nat)
  | killProc
  | enterRace
deriving DecidableEq

/-- The event trace of the streaming phase: the read loop has no early
exit, so every chunk is read in order; only then is the counter compared
against the limit, killing the process on excess and entering the
completion race otherwise. -/
def streamTrace (chunks : List String) (limit : Int) : List StreamEvent :=
  (List.range chunks.length).map StreamEvent.readChunk ++
    (if ((readLoop chunks "" 0).2 : Int) > limit then [StreamEvent.killProc]
     else [StreamEvent.enterRace])

/-! ## Sample data for concrete instances -/

/-- A concrete service descriptor. -/
def sampleService : Service := ⟨"http"⟩

/-- A concrete open port. -/
def samplePort : Port := ⟨80, "tcp", "open", sampleService⟩

/-- A concrete host with one port. -/
def sampleHost : Host := ⟨["10.0.0.1"], ["alpha.test"], [samplePort]⟩

/-- Concrete statistics with no scan-level error. -/
def sampleStats : Stats := ⟨⟨"0.25", ""⟩⟩

/-- A concrete report with one host. -/
def sampleRun : Run := ⟨[sampleHost], sampleStats⟩

/-- A parser that always fails. -/
def parseFail : String → Except String Run := fun _ => Except.error ("bad payload")

/-- An environment whose stream trips the heuristic while standard error is
nonempty. -/
def envCDN : RunEnv := ⟨true, ["Open ", "x"], false, "boom", parseFail, none, none⟩

/-- An environment whose cancellation fires first while standard error is
nonempty. -/
def envTimeoutLoud : RunEnv := ⟨true, ["quiet"], true, "warn line", parseFail, none, none⟩

/-- An environment that reaches the completion phase with a warning line on
standard error. -/
def envWarn : RunEnv := ⟨true, ["all quiet"], false, "warning: low ulimit", parseFail, none, none⟩

/-- An environment whose stream carries no open-port marker at all. -/
def envQuiet : RunEnv := ⟨true, ["nothing here"], false, "", parseFail, none, none⟩

/-- A parsed report whose finish statistics flag a name-resolution
failure. -/
def reportResolve : Run := ⟨[], ⟨⟨"0.5", "Error resolving name: example.test"⟩⟩⟩

/-- A parser that always yields `reportResolve`. -/
def parseResolve : String → Except String Run := fun _ => Except.ok reportResolve

/-- An environment that reaches the completion phase and parses into
`reportResolve`. -/
def envResolve : RunEnv := ⟨true, ["chunk"], false, "", parseResolve, none, none⟩

/-! ## Helper lemmas -/

theorem readLoop_spec (chunks : List String) : ∀ (out : String) (n : Nat),
    readLoop chunks out n =
      (chunks.foldl (fun r s => r ++ s) out,
       n + chunks.countP (fun c => goContains c openMarker)) := by
  induction chunks with
  | nil => intro out n; simp [readLoop]
  | cons c cs ih =>
    intro out n
    simp only [readLoop, List.foldl_cons, List.countP_cons, ih]
    cases h : goContains c openMarker <;> simp [h] <;> omega

theorem splitCharAux_ne_nil (sep : Char) :
    ∀ (l acc : List Char), splitCharAux sep acc l ≠ [] := by
  intro l
  induction l with
  | nil => intro acc; simp [splitCharAux]
  | cons c rest ih =>
    intro acc
    simp only [splitCharAux]
    split
    · simp
    · exact ih _

theorem goSplitNl_ne_nil (s : String) : goSplitNl s ≠ [] :=
  splitCharAux_ne_nil _ _ _

theorem portsLoopAux_length (f : Port → Bool) (hosts : List Host) :
    ∀ k, (portsLoopAux f hosts k).length = hosts.length := by
  intro k
  induction k with
  | zero => rfl
  | succ k ih =>
    simp only [portsLoopAux]
    cases h : (portsLoopAux f hosts k).get? k with
    | none => exact ih
    | some h' => simp [List.length_set, ih]

theorem portsLoopAux_get? (f : Port → Bool) (hosts : List Host) :
    ∀ k j, (portsLoopAux f hosts k).get? j =
      if j < k then
        (hosts.get? j).map (fun h => { h with Ports := h.Ports.filter f })
      else hosts.get? j := by
  intro k
  induction k with
  | zero => intro j; simp [portsLoopAux]
  | succ k ih =>
    intro j
    simp only [portsLoopAux]
    cases hk : (portsLoopAux f hosts k).get? k with
    | none =>
      have hk' : hosts.get? k = none := by
        have h := ih k
        rw [if_neg (lt_irrefl k)] at h
        rw [hk] at h
        exact h.symm
      rw [ih j]
      rcases Nat.lt_trichotomy j k with hlt | heq | hgt
      · rw [if_pos hlt, if_pos (by omega)]
      · subst heq
        rw [if_neg (lt_irrefl j), if_pos (Nat.lt_succ_self j), hk']
        rfl
      · rw [if_neg (by omega), if_neg (by omega)]
    | some h' =>
      have hhk : hosts.get? k = some h' := by
        have h := ih k
        rw [if_neg (lt_irrefl k)] at h
        rw [hk] at h
        exact h.symm
      have hklen : k < hosts.length := by
        by_contra hc
        rw [List.get?_len_le (by omega)] at hhk
        cases hhk
      by_cases hj : j = k
      · subst hj
        rw [List.get?_set_eq_of_lt _ (by rw [portsLoopAux_length]; exact hklen)]
        rw [if_pos (Nat.lt_succ_self j), hhk]
        rfl
      · rw [List.get?_set_ne _ _ (fun hc => hj hc.symm)]
        rw [ih j]
        by_cases hlt : j < k
        · rw [if_pos hlt, if_pos (by omega)]
        · rw [if_neg hlt, if_neg (by omega)]

theorem choosePorts_Hosts (r : Run) (f : Port → Bool) :
    (choosePorts r f).Hosts =
      r.Hosts.map (fun h => { h with Ports := h.Ports.filter f }) := by
  apply List.ext_get?
  intro n
  simp only [choosePorts]
  rw [portsLoopAux_get?, List.get?_map]
  by_cases hn : n < r.Hosts.length
  · rw [if_pos hn]
  · have h0 : r.Hosts.get? n = none := List.get?_len_le (by omega)
    rw [if_neg hn, h0]
    rfl

theorem completionPhase_warnings (env : RunEnv) (out_tmp : String) :
    (completionPhase env out_tmp).warnings = stderrWarnings env.stderrContent ∨
    ∃ msg, (completionPhase env out_tmp).warnings =
      stderrWarnings env.stderrContent ++ [msg] := by
  simp only [completionPhase]
  cases analyzeWarnings (stderrWarnings env.stderrContent) with
  | some e => left; rfl
  | none =>
    cases env.parse (extractPayload out_tmp) with
    | error msg => right; exact ⟨msg, rfl⟩
    | ok result =>
      by_cases h : 0 < result.Stats.Finished.ErrorMsg.length
      · by_cases h2 : goContains result.Stats.Finished.ErrorMsg ("Error resolving name")
        · left; simp [h, h2]
        · left; simp [h, h2]
      · left; simp [h]

theorem host_update_id (h : Host) :
    ({ h with Ports := h.Ports.filter (fun _ => true) } : Host) = h := by
  rw [List.filter_true]

theorem map_host_update_id (hosts : List Host) :
    hosts.map (fun h => ({ h with Ports := h.Ports.filter (fun _ => true) } : Host))
      = hosts := by
  induction hosts with
  | nil => rfl
  | cons a t iht => rw [List.map_cons, host_update_id, iht]

theorem choosePorts_true (r : Run) : choosePorts r (fun _ => true) = r := by
  obtain ⟨hosts, stats⟩ := r
  have hH := choosePorts_Hosts ⟨hosts, stats⟩ (fun _ => true)
  simp only [choosePorts] at hH
  show (⟨portsLoopAux (fun _ => true) hosts hosts.length, stats⟩ : Run) = ⟨hosts, stats⟩
  rw [hH, map_host_update_id]

/-! ## Claim theorems -/

/-- C7: the diagnostic classifier returns the out-of-memory error exactly
when some warning line contains the `Malloc Failed!` marker, regardless of
the line's position, returns nil exactly when no line does, and never
returns any other error. -/
theorem analyzeWarnings_malloc_iff (ws : List String) :
    (analyzeWarnings ws = some ScanError.ErrMallocFailed ↔
      ∃ w ∈ ws, goContains w mallocMarker = true) ∧
    (analyzeWarnings ws = none ↔ ∀ w ∈ ws, goContains w mallocMarker = false) ∧
    (analyzeWarnings ws = none ∨
      analyzeWarnings ws = some ScanError.ErrMallocFailed) := by
  induction ws with
  | nil => simp [analyzeWarnings]
  | cons w ws ih =>
    cases h : goContains w mallocMarker with
    | true => simp [analyzeWarnings, h]
    | false =>
      have hstep : analyzeWarnings (w :: ws) = analyzeWarnings ws := by
        simp [analyzeWarnings, h]
      refine ⟨?_, ?_, ?_⟩
      · rw [hstep, ih.1]
        simp [h]
      · rw [hstep, ih.2.1]
        simp [h]
      · rw [hstep]
        exact ih.2.2

/-- C8: filtering with an always-true predicate is the identity on the
report, an always-false host predicate empties the host sequence, an
always-false port predicate empties every host's port sequence, and in
general the surviving hosts are exactly the original hosts satisfying the
predicate in order, while port filtering maps each host to itself with its
ports filtered in order. -/
theorem filter_algebra (r : Run) (f : Host → Bool) (g : Port → Bool) :
    chooseHosts r (fun _ => true) = r ∧
    choosePorts r (fun _ => true) = r ∧
    (chooseHosts r (fun _ => false)).Hosts = [] ∧
    (∀ h ∈ (choosePorts r (fun _ => false)).Hosts, h.Ports = []) ∧
    (chooseHosts r f).Hosts = r.Hosts.filter f ∧
    (choosePorts r g).Hosts =
      r.Hosts.map (fun h => { h with Ports := h.Ports.filter g }) := by
  refine ⟨?_, choosePorts_true r, ?_, ?_, rfl, choosePorts_Hosts r g⟩
  · obtain ⟨hosts, stats⟩ := r
    show (⟨hosts.filter (fun _ => true), stats⟩ : Run) = ⟨hosts, stats⟩
    rw [List.filter_true]
  · exact List.filter_false r.Hosts
  · intro h hm
    rw [choosePorts_Hosts] at hm
    obtain ⟨h₀, _, rfl⟩ := List.mem_map.mp hm
    exact List.filter_false h₀.Ports

/-- C10: port filtering keeps the host structure intact — the host count is
unchanged, the host at each index keeps its addresses and hostnames and
merely has its port sequence filtered (so a host whose ports are all
rejected stays in the report with an empty port sequence), and the
statistics are untouched. -/
theorem choosePorts_frame (r : Run) (f : Port → Bool) (i : Nat) (h : Host)
    (hi : r.Hosts.get? i = some h) :
    (choosePorts r f).Hosts.length = r.Hosts.length ∧
    (choosePorts r f).Hosts.get? i =
      some { h with Ports := h.Ports.filter f } ∧
    (choosePorts r f).Stats = r.Stats := by
  refine ⟨?_, ?_, rfl⟩
  · exact portsLoopAux_length f r.Hosts r.Hosts.length
  · rw [choosePorts_Hosts, List.get?_map, hi]
    rfl

theorem choosePorts_frame_witness :
    (choosePorts sampleRun (fun _ => false)).Hosts.get? 0 =
      some { sampleHost with Ports := sampleHost.Ports.filter (fun _ => false) } :=
  (choosePorts_frame sampleRun (fun _ => false) 0 sampleHost rfl).2.1

/-- C3 counterexample: running either filter through a pointer leaves the
pointed-to report changed — with a rejecting predicate the cell at the
original pointer no longer holds the original report, so the input is
mutated. -/
theorem filters_mutate_counterexample :
    (chooseHostsMem ⟨[sampleRun]⟩ 0 (fun _ => false)).1.cells.get? 0 ≠
      some sampleRun ∧
    (choosePortsMem ⟨[sampleRun]⟩ 0 (fun _ => false)).1.cells.get? 0 ≠
      some sampleRun := by
  decide

/-- C3 amended: `chooseHosts` and `choosePorts` mutate their input report
in place — each returns the very pointer it was given, the pointed-to
report now holds the filtered sequences (surviving entries in their
original relative order), and every other heap cell is untouched. -/
theorem filters_mutate_in_place (m : Mem) (p : Nat) (r : Run)
    (f : Host → Bool) (g : Port → Bool) (hp : m.cells.get? p = some r) :
    (chooseHostsMem m p f).2 = p ∧
    (chooseHostsMem m p f).1.cells.get? p =
      some { r with Hosts := r.Hosts.filter f } ∧
    (∀ q, q ≠ p → (chooseHostsMem m p f).1.cells.get? q = m.cells.get? q) ∧
    (choosePortsMem m p g).2 = p ∧
    (choosePortsMem m p g).1.cells.get? p = some (choosePorts r g) ∧
    (choosePorts r g).Hosts =
      r.Hosts.map (fun h => { h with Ports := h.Ports.filter g }) ∧
    (∀ q, q ≠ p → (choosePortsMem m p g).1.cells.get? q = m.cells.get? q) := by
  have hlen : p < m.cells.length := by
    by_contra hc
    rw [List.get?_len_le (by omega)] at hp
    cases hp
  have hH : chooseHostsMem m p f = (⟨m.cells.set p (chooseHosts r f)⟩, p) := by
    simp only [chooseHostsMem, hp]
  have hP : choosePortsMem m p g = (⟨m.cells.set p (choosePorts r g)⟩, p) := by
    simp only [choosePortsMem, hp]
  rw [hH, hP]
  refine ⟨rfl, ?_, ?_, rfl, ?_, choosePorts_Hosts r g, ?_⟩
  · exact List.get?_set_eq_of_lt _ hlen
  · intro q hq
    exact List.get?_set_ne _ _ (Ne.symm hq)
  · exact List.get?_set_eq_of_lt _ hlen
  · intro q hq
    exact List.get?_set_ne _ _ (Ne.symm hq)

theorem filters_mutate_in_place_witness :
    (chooseHostsMem ⟨[sampleRun]⟩ 0 (fun _ => false)).1.cells.get? 0 =
      some { sampleRun with Hosts := sampleRun.Hosts.filter (fun _ => false) } :=
  (filters_mutate_in_place ⟨[sampleRun]⟩ 0 sampleRun
    (fun _ => false) (fun _ => false) rfl).2.1

/-- C1 counterexample: with limit 0 and the chunk sequence
`["Open ", "x"]`, the counter already exceeds the limit after the first
chunk — strictly before the stream ends — yet the streaming phase still
reads the remaining chunk before the process is killed, so the orchestrator
does not terminate the process immediately on the threshold breach. -/
theorem cdn_abort_timing_counterexample :
    ((readLoop ((["Open ", "x"] : List String).take 1) "" 0).2 : Int) > 0 ∧
    1 < (["Open ", "x"] : List String).length ∧
    streamTrace ["Open ", "x"] 0 =
      [StreamEvent.readChunk 0, StreamEvent.readChunk 1, StreamEvent.killProc] := by
  decide

/-- C1 amended: the threshold check happens only after the standard-output
stream ends — every chunk is read first — and when the final counter
exceeds the limit the orchestrator kills the process before the
completion-phase race and `Run` returns the CDN-suspected error with a nil
report and nil warnings. -/
theorem run_cdn_after_full_stream (env : RunEnv) (limit : Int)
    (hspawn : env.spawnOk = true)
    (hn : ((readLoop env.chunks "" 0).2 : Int) > limit) :
    Scanner.Run env limit = ⟨none, [], some ScanError.ErrScanCDN⟩ ∧
    streamTrace env.chunks limit =
      (List.range env.chunks.length).map StreamEvent.readChunk ++
        [StreamEvent.killProc] := by
  constructor
  · simp [Scanner.Run, hspawn, hn]
  · simp [streamTrace, hn]

theorem run_cdn_after_full_stream_witness :
    Scanner.Run envCDN 0 = ⟨none, [], some ScanError.ErrScanCDN⟩ :=
  (run_cdn_after_full_stream envCDN 0 rfl (by decide)).1

/-- C4 counterexample: a single chunk holding the open-port marker twice
increments the counter only once, while the accumulated text holds two
occurrences, so the counter does not equal the occurrence count in the
accumulated output. -/
theorem marker_count_counterexample :
    (readLoop ["Open Open "] "" 0).2 = 1 ∧
    countOcc (readLoop ["Open Open "] "" 0).1 openMarker = 2 := by
  decide

/-- C4 amended: after the streaming read loop the counter equals the number
of chunks that contain the open-port marker at least once (markers beyond
the first inside a chunk, and markers split across a chunk boundary, are
not counted), and the accumulation buffer is the concatenation of all
chunks. -/
theorem readLoop_counts_marker_chunks (chunks : List String) :
    (readLoop chunks "" 0).2 =
      chunks.countP (fun c => goContains c openMarker) ∧
    (readLoop chunks "" 0).1 = String.join chunks := by
  rw [readLoop_spec]
  exact ⟨Nat.zero_add _, rfl⟩

/-- C9: for every negative limit, when the spawn succeeds and the stream is
fully read, the counter — at least zero — already exceeds the limit, so the
process is killed and `Run` returns the CDN-suspected error with nil report
and nil warnings, even when no chunk holds an open-port marker. -/
theorem negative_limit_aborts (env : RunEnv) (limit : Int)
    (hspawn : env.spawnOk = true) (hneg : limit < 0) :
    Scanner.Run env limit = ⟨none, [], some ScanError.ErrScanCDN⟩ := by
  have hn : ((readLoop env.chunks "" 0).2 : Int) > limit := by omega
  simp [Scanner.Run, hspawn, hn]

theorem negative_limit_aborts_witness :
    (readLoop envQuiet.chunks "" 0).2 = 0 ∧
    Scanner.Run envQuiet (-1) = ⟨none, [], some ScanError.ErrScanCDN⟩ :=
  ⟨by decide, negative_limit_aborts envQuiet (-1) rfl (by decide)⟩

/-- C5 counterexample: the heuristic-abort and timeout paths return before
the standard-error buffer is consulted, so `Run` yields nil warnings on
them even when standard error is nonempty — spawn failure is not the only
nil-warnings exit. -/
theorem warnings_nil_counterexample :
    0 < envCDN.stderrContent.length ∧
    Scanner.Run envCDN 0 = ⟨none, [], some ScanError.ErrScanCDN⟩ ∧
    0 < envTimeoutLoud.stderrContent.length ∧
    Scanner.Run envTimeoutLoud 100 = ⟨none, [], some ScanError.ErrScanTimeout⟩ := by
  decide

/-- C5 amended: spawn failure, heuristic abort, and timeout are exactly the
exits with nil warnings; on every completion-phase exit (classifier error,
parse failure, scan-level failure, success) a nonempty standard-error
content yields warnings beginning with its newline-split lines, hence
nonempty. -/
theorem warnings_population (env : RunEnv) (limit : Int) :
    (env.spawnOk = false → (Scanner.Run env limit).warnings = []) ∧
    (((readLoop env.chunks "" 0).2 : Int) > limit →
      (Scanner.Run env limit).warnings = []) ∧
    (env.ctxDoneFirst = true → ¬ ((readLoop env.chunks "" 0).2 : Int) > limit →
      (Scanner.Run env limit).warnings = []) ∧
    (env.spawnOk = true → ¬ ((readLoop env.chunks "" 0).2 : Int) > limit →
      env.ctxDoneFirst = false → 0 < env.stderrContent.length →
      (Scanner.Run env limit).warnings.take
          (goSplitNl (trimNl env.stderrContent)).length
        = goSplitNl (trimNl env.stderrContent) ∧
      (Scanner.Run env limit).warnings ≠ []) := by
  by_cases hs : env.spawnOk = false
  · have hrun : Scanner.Run env limit = ⟨none, [], some ScanError.StartFailure⟩ := by
      simp [Scanner.Run, hs]
    exact ⟨fun _ => (by rw [hrun]), fun _ => (by rw [hrun]), fun _ _ => (by rw [hrun]),
      fun htrue _ _ _ => (by rw [hs] at htrue; cases htrue)⟩
  · have hs' : env.spawnOk = true := by revert hs; cases env.spawnOk <;> simp
    by_cases hn : ((readLoop env.chunks "" 0).2 : Int) > limit
    · have hrun : Scanner.Run env limit = ⟨none, [], some ScanError.ErrScanCDN⟩ := by
        simp [Scanner.Run, hs', hn]
      exact ⟨fun _ => (by rw [hrun]), fun _ => (by rw [hrun]),
        fun _ hnn => absurd hn hnn, fun _ hnn _ _ => absurd hn hnn⟩
    · by_cases hc : env.ctxDoneFirst = true
      · have hrun : Scanner.Run env limit = ⟨none, [], some ScanError.ErrScanTimeout⟩ := by
          simp [Scanner.Run, hs', hn, hc]
        exact ⟨fun _ => (by rw [hrun]), fun hgt => absurd hgt hn,
          fun _ _ => (by rw [hrun]),
          fun _ _ hcf _ => (by rw [hc] at hcf; cases hcf)⟩
      · have hc' : env.ctxDoneFirst = false := by
          revert hc; cases env.ctxDoneFirst <;> simp
        have hrun : Scanner.Run env limit
            = completionPhase env (readLoop env.chunks "" 0).1 := by
          simp [Scanner.Run, hs', hn, hc']
        refine ⟨fun hf => (by rw [hs'] at hf; cases hf), fun hgt => absurd hgt hn,
          fun hcf _ => (by rw [hc'] at hcf; cases hcf),
          fun _ _ _ hlen => ?_⟩
        rw [hrun]
        have hw : stderrWarnings env.stderrContent
            = goSplitNl (trimNl env.stderrContent) := by
          simp [stderrWarnings, hlen]
        rcases completionPhase_warnings env (readLoop env.chunks "" 0).1 with h | ⟨msg, h⟩
        · rw [h, hw]
          exact ⟨List.take_length _, goSplitNl_ne_nil _⟩
        · rw [h, hw]
          refine ⟨List.take_left _ _, ?_⟩
          intro hnil
          exact absurd (List.append_eq_nil.mp hnil).2 (by simp)

theorem warnings_population_witness :
    (Scanner.Run envWarn 5).warnings.take
        (goSplitNl (trimNl envWarn.stderrContent)).length
      = goSplitNl (trimNl envWarn.stderrContent) ∧
    (Scanner.Run envWarn 5).warnings ≠ [] :=
  (warnings_population envWarn 5).2.2.2 rfl (by decide) rfl (by decide)

/-- C6: when the parsed report carries a nonempty scan-level error message,
`Run` returns the non-nil report together with a non-nil error — the
name-resolution error kind when the message contains the resolution-failure
marker, otherwise a generic error carrying the message — and these
scan-level failures are the only exits where report and error are both
non-nil. -/
theorem scan_failure_classification :
    (∀ (env : RunEnv) (limit : Int) (result : Run),
      env.spawnOk = true →
      ¬ ((readLoop env.chunks "" 0).2 : Int) > limit →
      env.ctxDoneFirst = false →
      analyzeWarnings (stderrWarnings env.stderrContent) = none →
      env.parse (extractPayload (readLoop env.chunks "" 0).1) = Except.ok result →
      0 < result.Stats.Finished.ErrorMsg.length →
      Scanner.Run env limit =
        ⟨some result, stderrWarnings env.stderrContent,
         some (if goContains result.Stats.Finished.ErrorMsg ("Error resolving name")
           then ScanError.ErrResolveName
           else ScanError.ScanFailure result.Stats.Finished.ErrorMsg)⟩) ∧
    (∀ (env : RunEnv) (limit : Int) (r : Run) (e : ScanError),
      (Scanner.Run env limit).result = some r →
      (Scanner.Run env limit).err = some e →
      0 < r.Stats.Finished.ErrorMsg.length ∧
      (e = ScanError.ErrResolveName ∨
        e = ScanError.ScanFailure r.Stats.Finished.ErrorMsg)) := by
  constructor
  · intro env limit result hs hn hc hw hp hmsg
    have hrun : Scanner.Run env limit
        = completionPhase env (readLoop env.chunks "" 0).1 := by
      simp [Scanner.Run, hs, hn, hc]
    rw [hrun]
    simp only [completionPhase, hw, hp]
    rw [if_pos hmsg]
    by_cases hres : goContains result.Stats.Finished.ErrorMsg ("Error resolving name")
    · rw [if_pos hres, if_pos hres]
    · rw [if_neg hres, if_neg hres]
  · intro env limit r e
    by_cases hs : env.spawnOk = false
    · have hrun : Scanner.Run env limit = ⟨none, [], some ScanError.StartFailure⟩ := by
        simp [Scanner.Run, hs]
      rw [hrun]
      exact fun hres _ => Option.noConfusion hres
    · have hs' : env.spawnOk = true := by revert hs; cases env.spawnOk <;> simp
      by_cases hn : ((readLoop env.chunks "" 0).2 : Int) > limit
      · have hrun : Scanner.Run env limit = ⟨none, [], some ScanError.ErrScanCDN⟩ := by
          simp [Scanner.Run, hs', hn]
        rw [hrun]
        exact fun hres _ => Option.noConfusion hres
      · by_cases hc : env.ctxDoneFirst = true
        · have hrun : Scanner.Run env limit = ⟨none, [], some ScanError.ErrScanTimeout⟩ := by
            simp [Scanner.Run, hs', hn, hc]
          rw [hrun]
          exact fun hres _ => Option.noConfusion hres
        · have hc' : env.ctxDoneFirst = false := by
            revert hc; cases env.ctxDoneFirst <;> simp
          have hrun : Scanner.Run env limit
              = completionPhase env (readLoop env.chunks "" 0).1 := by
            simp [Scanner.Run, hs', hn, hc']
          rw [hrun]
          simp only [completionPhase]
          split
          · exact fun hres _ => Option.noConfusion hres
          · split
            · exact fun hres _ => Option.noConfusion hres
            · rename_i result _
              split
              · rename_i hmsg
                split
                · intro hres herr
                  obtain rfl : result = r := Option.some.inj hres
                  obtain rfl : ScanError.ErrResolveName = e := Option.some.inj herr
                  exact ⟨hmsg, Or.inl rfl⟩
                · intro hres herr
                  obtain rfl : result = r := Option.some.inj hres
                  obtain rfl := Option.some.inj herr
                  exact ⟨hmsg, Or.inr rfl⟩
              · exact fun _ herr => Option.noConfusion herr

theorem scan_failure_classification_witness :
    Scanner.Run envResolve 10 = ⟨some reportResolve, [], some ScanError.ErrResolveName⟩ := by
  rw [scan_failure_classification.1 envResolve 10 reportResolve rfl (by decide) rfl rfl rfl
    (by decide)]
  decide

set_option maxRecDepth 400000 in
/-- C2 counterexample: the synthesized payload's address attribute is the
fixed literal `www.baidu.com` — not the caller's target (for instance the
example caller's target `localhost`) — and its elapsed attribute is `0.25`
seconds, not zero. -/
theorem structure_payload_counterexample :
    attrVal Structure ("addr") = some ("www.baidu.com") ∧
    (some ("www.baidu.com") : Option String) ≠ some ("localhost") ∧
    attrVal Structure ("elapsed") = some ("0.25") ∧
    ("0.25" : String) ≠ ("0") := by
  decide

set_option maxRecDepth 400000 in
/-- C2 amended: the synthesized payload holds exactly one host element and
one port element, the port state is `closed`, every address attribute
carries the fixed literal `www.baidu.com` regardless of any caller target,
and the elapsed time is `0.25` seconds. -/
theorem structure_payload_shape :
    countOcc Structure ("<host ") = 1 ∧
    countOcc Structure ("<port ") = 1 ∧
    countOcc Structure ("state=\"closed\"") = 1 ∧
    countOcc Structure ("addr=\"") = 2 ∧
    countOcc Structure ("addr=\"www.baidu.com\"") = 2 ∧
    attrVal Structure ("elapsed") = some ("0.25") := by
  decide

end RustScan
